import Mathlib

/-!
Shallow embedding of the `atom` offline-first document synchronization engine
(TypeScript) together with proofs about its behaviour.

Modelling conventions:
* JavaScript numbers holding epoch-millisecond timestamps are modelled as
  `Int` (ordering and successor arithmetic are all the code uses).
* Document ids are `String`, compared with the lexicographic order, as
  JavaScript compares strings.
* A JavaScript `Map` is modelled as an insertion-ordered association list
  (`mapGet` / `mapSet` / `mapDelete` below).
* Impure inputs (`Date.now()`, generated ids, transport results, the records
  that concurrent local mutations append while a transport call is awaited)
  are passed as explicit parameters.
* `async` methods that only sequence awaited calls are modelled as pure state
  transformers on an explicit engine state; emitted events are accumulated in
  an `events` trace inside that state.
-/

namespace Atom

/-- `DocumentVersion` from `types.ts`: document id plus timestamp.  The
optional `checksum` field never influences any control flow in the engine and
is omitted. -/
structure DocumentVersion where
  id : String
  timestamp : Int
  deriving Repr, DecidableEq

/-- `Document<T>` from `types.ts`; the optional `deleted?` boolean is
modelled as a `Bool` defaulting to `false` (absent and `false` are
indistinguishable to the engine). -/
structure Document (T : Type) where
  id : String
  data : T
  version : DocumentVersion
  deleted : Bool := false
  deriving Repr, DecidableEq

/-- `ChangeOperation` from `types.ts`. -/
inductive ChangeOperation where
  | create
  | update
  | delete
  deriving Repr, DecidableEq

/-- `ChangeRecord<T>` from `types.ts`; `data` is `null` for deletes, modelled
as `Option T`. -/
structure ChangeRecord (T : Type) where
  id : String
  operation : ChangeOperation
  data : Option T
  version : DocumentVersion
  localTimestamp : Int
  deriving Repr, DecidableEq

/-- `ConflictInfo<T>` from `types.ts`. -/
structure ConflictInfo (T : Type) where
  documentId : String
  localVersion : DocumentVersion
  remoteVersion : DocumentVersion
  localData : T
  remoteData : T
  deriving Repr, DecidableEq

/-- `ConflictResolution<T>` from `types.ts`. -/
structure ConflictResolution (T : Type) where
  resolvedData : T
  resolvedVersion : DocumentVersion
  deriving Repr, DecidableEq

/-- Lookup in a JavaScript `Map` modelled as an association list. -/
def mapGet [DecidableEq κ] (m : List (κ × β)) (k : κ) : Option β :=
  (m.find? fun p => decide (p.1 = k)).map (·.2)

/-- `Map.set`: overwrite the entry in place when the key is present,
otherwise append (JavaScript maps preserve insertion order). -/
def mapSet [DecidableEq κ] (m : List (κ × β)) (k : κ) (v : β) : List (κ × β) :=
  match m with
  | [] => [(k, v)]
  | p :: ps => if p.1 = k then (k, v) :: ps else p :: mapSet ps k v

/-- `Map.delete`: remove the entry with the given key. -/
def mapDelete [DecidableEq κ] (m : List (κ × β)) (k : κ) : List (κ × β) :=
  m.filter fun p => decide (¬ p.1 = k)

/-- `createVersion` from `utils.ts`: `timestamp ?? now()`, with `now()`
passed in as `nowTs`. -/
def createVersion (id : String) (timestamp : Option Int) (nowTs : Int) :
    DocumentVersion :=
  { id := id, timestamp := timestamp.getD nowTs }

/-- `createDocument` from `utils.ts`.  The impure `generateId()` result is
passed in as `generatedId`. -/
def createDocument (data : T) (id : Option String)
    (version : Option DocumentVersion) (generatedId : String) (nowTs : Int) :
    Document T :=
  let docId := id.getD generatedId
  { id := docId, data := data,
    version := version.getD (createVersion docId none nowTs) }

/-- `cloneDocument` from `utils.ts`: clone with new data and a version
timestamp forced strictly above the original. -/
def cloneDocument (document : Document T) (newData : Option T)
    (newTimestamp : Option Int) (nowTs : Int) : Document T :=
  let timestamp := newTimestamp.getD nowTs
  let finalTimestamp :=
    if timestamp ≤ document.version.timestamp then
      document.version.timestamp + 1
    else timestamp
  { document with
    data := newData.getD document.data,
    version := { document.version with timestamp := finalTimestamp } }

/-- `compareVersions` from `utils.ts`: −1/0/+1, first by timestamp, then
lexicographically by id. -/
def compareVersions (a b : DocumentVersion) : Int :=
  if a.timestamp < b.timestamp then -1
  else if a.timestamp > b.timestamp then 1
  else if a.id < b.id then -1
  else if a.id > b.id then 1
  else 0

namespace LastWriteWinsResolver

/-- `LastWriteWinsResolver.resolve` from `conflict-resolvers.ts`.  The
resolver is synchronous apart from promise wrapping, so it is modelled as a
pure function. -/
def resolve (conflict : ConflictInfo T) : ConflictResolution T :=
  if conflict.remoteVersion.timestamp > conflict.localVersion.timestamp ∨
      (conflict.remoteVersion.timestamp = conflict.localVersion.timestamp ∧
        conflict.remoteVersion.id > conflict.localVersion.id) then
    { resolvedData := conflict.remoteData,
      resolvedVersion := conflict.remoteVersion }
  else
    { resolvedData := conflict.localData,
      resolvedVersion := conflict.localVersion }

end LastWriteWinsResolver

/-- The state of a `ChangeTracker<T>` from `change-tracker.ts`: the
latest-per-id index (`changes`, a JavaScript map) and the append-only queue
(`changeQueue`). -/
structure ChangeTracker (T : Type) where
  changes : List (String × ChangeRecord T) := []
  changeQueue : List (ChangeRecord T) := []
  deriving Repr, DecidableEq

namespace ChangeTracker

/-- `ChangeTracker.addChange`: set the latest-per-id index entry and append
to the queue. -/
def addChange (t : ChangeTracker T) (change : ChangeRecord T) :
    ChangeTracker T :=
  { changes := mapSet t.changes change.id change,
    changeQueue := t.changeQueue ++ [change] }

/-- `ChangeTracker.recordCreate`; `now()` is passed in as `nowTs`.  The
source also returns the recorded change; callers in the engine ignore it. -/
def recordCreate (t : ChangeTracker T) (document : Document T) (nowTs : Int) :
    ChangeTracker T :=
  addChange t
    { id := document.id, operation := .create, data := some document.data,
      version := document.version, localTimestamp := nowTs }

/-- `ChangeTracker.recordUpdate`; `now()` is passed in as `nowTs`. -/
def recordUpdate (t : ChangeTracker T) (document : Document T) (nowTs : Int) :
    ChangeTracker T :=
  addChange t
    { id := document.id, operation := .update, data := some document.data,
      version := document.version, localTimestamp := nowTs }

/-- `ChangeTracker.recordDelete`; `now()` is passed in as `nowTs`.  The
engine always supplies the prior version, so the defaulted version argument
is made explicit. -/
def recordDelete (t : ChangeTracker T) (id : String)
    (version : DocumentVersion) (nowTs : Int) : ChangeTracker T :=
  addChange t
    { id := id, operation := .delete, data := none,
      version := version, localTimestamp := nowTs }

/-- `ChangeTracker.getPendingChanges`: a snapshot copy of the queue. -/
def getPendingChanges (t : ChangeTracker T) : List (ChangeRecord T) :=
  t.changeQueue

/-- `ChangeTracker.getChangesSince`. -/
def getChangesSince (t : ChangeTracker T) (timestamp : Int) :
    List (ChangeRecord T) :=
  t.changeQueue.filter fun change => decide (change.localTimestamp > timestamp)

/-- `ChangeTracker.getLatestChange`. -/
def getLatestChange (t : ChangeTracker T) (id : String) :
    Option (ChangeRecord T) :=
  mapGet t.changes id

/-- `ChangeTracker.clearChangesBefore`: the queue keeps records with
`localTimestamp >= timestamp`; the index drops entries with
`localTimestamp < timestamp`. -/
def clearChangesBefore (t : ChangeTracker T) (timestamp : Int) :
    ChangeTracker T :=
  { changeQueue :=
      t.changeQueue.filter fun change =>
        decide (change.localTimestamp ≥ timestamp),
    changes :=
      t.changes.filter fun p => decide (¬ p.2.localTimestamp < timestamp) }

/-- `ChangeTracker.clearAllChanges`. -/
def clearAllChanges (_t : ChangeTracker T) : ChangeTracker T :=
  { changes := [], changeQueue := [] }

/-- `ChangeTracker.getPendingChangeCount`. -/
def getPendingChangeCount (t : ChangeTracker T) : Nat :=
  t.changeQueue.length

/-- `ChangeTracker.hasPendingChanges`. -/
def hasPendingChanges (t : ChangeTracker T) : Bool :=
  !t.changeQueue.isEmpty

/-- The body of the `for` loop of `ChangeTracker.mergeChanges`: add the
record only when no index entry exists for its id or the record's version
timestamp strictly exceeds the entry's. -/
def mergeStep (t : ChangeTracker T) (change : ChangeRecord T) :
    ChangeTracker T :=
  match getLatestChange t change.id with
  | none => addChange t change
  | some existingChange =>
      if change.version.timestamp > existingChange.version.timestamp then
        addChange t change
      else t

/-- `ChangeTracker.mergeChanges`: fold `mergeStep` over the external records
in order. -/
def mergeChanges (t : ChangeTracker T) (otherChanges : List (ChangeRecord T)) :
    ChangeTracker T :=
  otherChanges.foldl mergeStep t

end ChangeTracker

/-- The state of a `MemoryStoreAdapter<T>` (the repository's concrete store):
the documents map plus the persisted last-sync timestamp.  Its change-log
fields are never used by the engine and are omitted. -/
structure MemoryStore (T : Type) where
  documents : List (String × Document T) := []
  lastSyncTimestamp : Int := 0
  deriving Repr, DecidableEq

namespace MemoryStore

/-- `MemoryStoreAdapter.get`. -/
def get (s : MemoryStore T) (id : String) : Option (Document T) :=
  mapGet s.documents id

/-- `MemoryStoreAdapter.put` (the spread copy has value semantics here). -/
def put (s : MemoryStore T) (document : Document T) : MemoryStore T :=
  { s with documents := mapSet s.documents document.id document }

/-- `MemoryStoreAdapter.delete`. -/
def delete (s : MemoryStore T) (id : String) : MemoryStore T :=
  { s with documents := mapDelete s.documents id }

/-- `MemoryStoreAdapter.setLastSyncTimestamp`. -/
def setLastSyncTimestamp (s : MemoryStore T) (timestamp : Int) :
    MemoryStore T :=
  { s with lastSyncTimestamp := timestamp }

end MemoryStore

/-- `SYNC_OPERATION` from `enums.ts`. -/
inductive SyncOperation where
  | pull
  | push
  deriving Repr, DecidableEq

/-- `SyncState` from `types.ts`. -/
structure SyncState where
  lastPullTimestamp : Int
  lastPushTimestamp : Int
  pendingChanges : Nat
  isOnline : Bool
  isSyncing : Bool
  deriving Repr, DecidableEq

/-- The events of `SyncEvents<T>` (`interfaces.ts`), with their payloads. -/
inductive SyncEvent (T : Type) where
  | documentCreated (document : Document T)
  | documentUpdated (document : Document T) (previousVersion : DocumentVersion)
  | documentDeleted (id : String) (version : DocumentVersion)
  | syncStarted (op : SyncOperation)
  | syncCompleted (op : SyncOperation) (changeCount : Nat)
  | syncFailed (op : SyncOperation) (error : String)
  | conflictDetected (conflict : ConflictInfo T)
  | conflictResolved (resolution : ConflictResolution T)
  | connectionOnline
  | connectionOffline
  | stateChanged (state : SyncState)
  deriving Repr, DecidableEq

/-- `PushResult` from `interfaces.ts`. -/
structure PushResult (T : Type) where
  success : Bool
  conflicts : List (ConflictInfo T) := []
  error : Option String := none
  timestamp : Option Int := none
  deriving Repr, DecidableEq

/-- `PullResult<T>` from `interfaces.ts`. -/
structure PullResult (T : Type) where
  success : Bool
  changes : List (ChangeRecord T) := []
  timestamp : Int := 0
  error : Option String := none
  deriving Repr, DecidableEq

/-- The mutable state of a `SyncEngine<T>` (`sync-engine.ts`), backed by the
in-memory store.  Timer bookkeeping (`isStarted`, interval handles, the
debounce handle) only schedules future calls and is not part of the state the
claims are about; emitted events are accumulated in `events`. -/
structure SyncEngine (T : Type) where
  store : MemoryStore T := {}
  changeTracker : ChangeTracker T := {}
  isSyncing : Bool := false
  isOnline : Bool := false
  lastPullTimestamp : Int := 0
  lastPushTimestamp : Int := 0
  events : List (SyncEvent T) := []
  deriving Repr, DecidableEq

namespace SyncEngine

/-- `SyncEngine.emit`, delegating to the event emitter: the event is appended
to the trace.  Listener fan-out is modelled separately (see
`SyncEventEmitter`). -/
def emit (s : SyncEngine T) (e : SyncEvent T) : SyncEngine T :=
  { s with events := s.events ++ [e] }

/-- `SyncEngine.getSyncState`. -/
def getSyncState (s : SyncEngine T) : SyncState :=
  { lastPullTimestamp := s.lastPullTimestamp,
    lastPushTimestamp := s.lastPushTimestamp,
    pendingChanges := s.changeTracker.getPendingChangeCount,
    isOnline := s.isOnline,
    isSyncing := s.isSyncing }

/-- `SyncEngine.emitStateChange`. -/
def emitStateChange (s : SyncEngine T) : SyncEngine T :=
  emit s (.stateChanged (getSyncState s))

/-- `SyncEngine.get`: a pure store read. -/
def get (s : SyncEngine T) (id : String) : Option (Document T) :=
  s.store.get id

/-- `SyncEngine.put`: raw write of the caller's document, recorded as an
update.  The emitted `previousVersion` is the written document's own version,
as in the source.  The debounced push only schedules a later `push` call. -/
def put (s : SyncEngine T) (document : Document T) (nowTs : Int) :
    SyncEngine T :=
  emit
    { s with
      store := s.store.put document,
      changeTracker := s.changeTracker.recordUpdate document nowTs }
    (.documentUpdated document document.version)

/-- `SyncEngine.create`; `generateId()` is passed in as `generatedId`. -/
def create (s : SyncEngine T) (data : T) (id : Option String)
    (generatedId : String) (nowTs : Int) : SyncEngine T × Document T :=
  let document := createDocument data id none generatedId nowTs
  (emit
    { s with
      store := s.store.put document,
      changeTracker := s.changeTracker.recordCreate document nowTs }
    (.documentCreated document),
   document)

/-- `SyncEngine.update`: returns `none` when the document is absent, else
clones it with a strictly greater version timestamp and writes it back. -/
def update (s : SyncEngine T) (id : String) (data : T) (nowTs : Int) :
    SyncEngine T × Option (Document T) :=
  match s.store.get id with
  | none => (s, none)
  | some existing =>
      let updated := cloneDocument existing (some data) none nowTs
      (emit
        { s with
          store := s.store.put updated,
          changeTracker := s.changeTracker.recordUpdate updated nowTs }
        (.documentUpdated updated existing.version),
       some updated)

/-- `SyncEngine.delete`: returns `false` when the document is absent, else
removes it from the store and records the deletion. -/
def delete (s : SyncEngine T) (id : String) (nowTs : Int) :
    SyncEngine T × Bool :=
  match s.store.get id with
  | none => (s, false)
  | some existing =>
      (emit
        { s with
          store := s.store.delete id,
          changeTracker := s.changeTracker.recordDelete id existing.version nowTs }
        (.documentDeleted id existing.version),
       true)

/-- `SyncEngine.resolveConflicts`: for each conflict emit
`CONFLICT_DETECTED`, run the resolver, write the resolved document, record an
update, emit `CONFLICT_RESOLVED`.  The pluggable resolver is modelled as a
pure total function, so the per-conflict failure branch is unreachable. -/
def resolveConflicts (s : SyncEngine T)
    (resolver : ConflictInfo T → ConflictResolution T)
    (conflicts : List (ConflictInfo T)) (nowTs : Int) : SyncEngine T :=
  conflicts.foldl
    (fun st conflict =>
      let st := emit st (.conflictDetected conflict)
      let resolution := resolver conflict
      let resolvedDocument : Document T :=
        { id := conflict.documentId, data := resolution.resolvedData,
          version := resolution.resolvedVersion, deleted := false }
      let st :=
        { st with
          store := st.store.put resolvedDocument,
          changeTracker := st.changeTracker.recordUpdate resolvedDocument nowTs }
      emit st (.conflictResolved resolution))
    s

/-- `SyncEngine.handleCreateOrUpdateChange`: on a non-null-data remote
create/update, detect a conflict when the local document is strictly newer,
otherwise write the remote document to the store. -/
def handleCreateOrUpdateChange (s : SyncEngine T) (change : ChangeRecord T)
    (resolver : ConflictInfo T → ConflictResolution T) (nowTs : Int) :
    SyncEngine T :=
  match change.data with
  | none => s
  | some d =>
      let document : Document T :=
        { id := change.id, data := d, version := change.version,
          deleted := false }
      match s.store.get change.id with
      | some existing =>
          if existing.version.timestamp > change.version.timestamp then
            resolveConflicts s resolver
              [{ documentId := change.id,
                 localVersion := existing.version,
                 remoteVersion := change.version,
                 localData := existing.data,
                 remoteData := d }] nowTs
          else { s with store := s.store.put document }
      | none => { s with store := s.store.put document }

/-- `SyncEngine.applySingleRemoteChange`. -/
def applySingleRemoteChange (s : SyncEngine T) (change : ChangeRecord T)
    (resolver : ConflictInfo T → ConflictResolution T) (nowTs : Int) :
    SyncEngine T :=
  match change.operation with
  | .create =>
      if change.data.isSome then handleCreateOrUpdateChange s change resolver nowTs
      else s
  | .update =>
      if change.data.isSome then handleCreateOrUpdateChange s change resolver nowTs
      else s
  | .delete => { s with store := s.store.delete change.id }

/-- `SyncEngine.applyRemoteChanges`: apply each change in delivery order.
The per-change try/catch is unreachable in this pure model (the in-memory
store never fails). -/
def applyRemoteChanges (s : SyncEngine T) (changes : List (ChangeRecord T))
    (resolver : ConflictInfo T → ConflictResolution T) (nowTs : Int) :
    SyncEngine T :=
  changes.foldl (fun st change => applySingleRemoteChange st change resolver nowTs) s

/-- Outcome sequence of `retry` from `utils.ts`: return the first attempt
that succeeds; after the last attempt, propagate its outcome (success or the
raised error).  `fallbackError` stands for the undefined `lastError` thrown
when `maxAttempts` is zero. -/
def retryRun (attempts : List (Except String α)) (fallbackError : String) :
    Except String α :=
  match attempts with
  | [] => .error fallbackError
  | [a] => a
  | a :: rest =>
      match a with
      | .ok v => .ok v
      | .error _ => retryRun rest fallbackError

/-- `Math.max(...changes.map(c => c.localTimestamp))` over the (nonempty,
by the push guard) batch; the empty case is unreachable for `batchSize > 0`
and is given an arbitrary value. -/
def maxLocalTimestamp : List (ChangeRecord T) → Int
  | [] => 0
  | c :: cs => cs.foldl (fun m r => max m r.localTimestamp) c.localTimestamp

/-- `SyncEngine.pull`.  `retryOutcome` is the outcome of
`retry(() => transport.pull(lastPullTimestamp), …)` (see `retryRun`): `.ok`
with the transport's `PullResult`, or `.error` with the message of the error
raised after retries were exhausted.  A `success=false` result is turned into
a thrown error by the source and lands in the same catch branch. -/
def pull (s : SyncEngine T) (retryOutcome : Except String (PullResult T))
    (resolver : ConflictInfo T → ConflictResolution T) (nowTs : Int) :
    SyncEngine T :=
  if s.isSyncing || !s.isOnline then s
  else
    let s1 := emit { s with isSyncing := true } (.syncStarted .pull)
    let s2 :=
      match retryOutcome with
      | .ok result =>
          if result.success then
            let sa := applyRemoteChanges s1 result.changes resolver nowTs
            let sb :=
              { sa with
                lastPullTimestamp := result.timestamp,
                store := sa.store.setLastSyncTimestamp result.timestamp }
            emit sb (.syncCompleted .pull result.changes.length)
          else emit s1 (.syncFailed .pull (result.error.getD "Pull failed"))
      | .error e => emit s1 (.syncFailed .pull e)
    emitStateChange { s2 with isSyncing := false }

/-- `SyncEngine.push`.  `retryOutcome` is the outcome of
`retry(() => transport.push(batch), …)` as for `pull`.
`appendedDuringAwait` are the records that local mutations append to the
tracker while the transport call is awaited (the engine's CRUD methods are
not blocked by `isSyncing`); they all flow through
`ChangeTracker.addChange`. -/
def push (s : SyncEngine T) (retryOutcome : Except String (PushResult T))
    (appendedDuringAwait : List (ChangeRecord T))
    (resolver : ConflictInfo T → ConflictResolution T)
    (batchSize : Nat) (nowTs : Int) : SyncEngine T :=
  if s.isSyncing || !s.isOnline then s
  else if !s.changeTracker.hasPendingChanges then s
  else
    let s1 := emit { s with isSyncing := true } (.syncStarted .push)
    let changes := s1.changeTracker.getPendingChanges.take batchSize
    let s2 :=
      { s1 with
        changeTracker :=
          appendedDuringAwait.foldl ChangeTracker.addChange s1.changeTracker }
    let s3 :=
      match retryOutcome with
      | .ok result =>
          if result.success then
            let sa :=
              if 0 < result.conflicts.length then
                resolveConflicts s2 resolver result.conflicts nowTs
              else s2
            let maxTimestamp := maxLocalTimestamp changes
            let sb :=
              { sa with
                changeTracker :=
                  sa.changeTracker.clearChangesBefore (maxTimestamp + 1) }
            let sc :=
              match result.timestamp with
              | some ts =>
                  { sb with
                    lastPushTimestamp := ts,
                    store := sb.store.setLastSyncTimestamp ts }
              | none => sb
            emit sc (.syncCompleted .push changes.length)
          else emit s2 (.syncFailed .push (result.error.getD "Push failed"))
      | .error e => emit s2 (.syncFailed .push e)
    emitStateChange { s3 with isSyncing := false }

/-- `SyncEngine.sync`: guard, then `pull` followed by `push` (each with its
own guard); the surrounding catch swallows nothing in this pure model. -/
def sync (s : SyncEngine T)
    (pullOutcome : Except String (PullResult T))
    (pushOutcome : Except String (PushResult T))
    (appendedDuringAwait : List (ChangeRecord T))
    (resolver : ConflictInfo T → ConflictResolution T)
    (batchSize : Nat) (nowTs : Int) : SyncEngine T :=
  if s.isSyncing || !s.isOnline then s
  else
    push (pull s pullOutcome resolver nowTs) pushOutcome appendedDuringAwait
      resolver batchSize nowTs

end SyncEngine

/-- One registered listener of `SyncEventEmitter` (`event-emitter.ts`).  A
JavaScript listener is an arbitrary side-effecting function that may throw
after performing some of its effects; it is modelled as a total function
from the event payload and the ambient world state to the successor world
state paired with the error it throws, if any. -/
def ListenerFn (α σ ε : Type) : Type :=
  α → σ → σ × Option ε

/-- The listener registry of `SyncEventEmitter`: a JavaScript map from event
key to the registered listeners in registration order (a JavaScript `Set`
iterates in insertion order). -/
structure SyncEventEmitter (κ α σ ε : Type) where
  listeners : List (κ × List (ListenerFn α σ ε)) := []

namespace SyncEventEmitter

/-- `SyncEventEmitter.on` (the bare name `on` is notation in Mathlib): create
the per-event slot when absent, then add the listener.  `Set.add`
deduplicates by function identity, which a shallow embedding cannot observe;
registering the same closure twice is out of scope of the claims. -/
def onListener [DecidableEq κ] (em : SyncEventEmitter κ α σ ε) (event : κ)
    (listener : ListenerFn α σ ε) : SyncEventEmitter κ α σ ε :=
  match mapGet em.listeners event with
  | none => { listeners := mapSet em.listeners event [listener] }
  | some ls => { listeners := mapSet em.listeners event (ls ++ [listener]) }

/-- The `forEach` body of `SyncEventEmitter.emit`, folded over the listener
list: run each listener on the current world state; a thrown error is logged
(appended to `log`) and swallowed, and iteration continues. -/
def emitFold (ls : List (ListenerFn α σ ε)) (data : α) (s : σ)
    (log : List ε) : σ × List ε :=
  ls.foldl
    (fun acc l =>
      match l data acc.1 with
      | (s2, none) => (s2, acc.2)
      | (s2, some e) => (s2, acc.2 ++ [e]))
    (s, log)

/-- `SyncEventEmitter.emit`: look up the listeners registered for the event
and run them all; an absent slot means no listener runs. -/
def emit [DecidableEq κ] (em : SyncEventEmitter κ α σ ε) (event : κ)
    (data : α) (s : σ) (log : List ε) : σ × List ε :=
  match mapGet em.listeners event with
  | none => (s, log)
  | some eventListeners => emitFold eventListeners data s log

/-- The errors the listeners of a list throw when run in order from a given
state (specification-side characterization used to state what `emit`
logs). -/
def errorsAccum : List (ListenerFn α σ ε) → α → σ → List ε
  | [], _, _ => []
  | l :: ls, data, s =>
      match l data s with
      | (s2, none) => errorsAccum ls data s2
      | (s2, some e) => e :: errorsAccum ls data s2

end SyncEventEmitter

/-- A concrete pending change used by the concrete engine states below. -/
def sampleChange : ChangeRecord String :=
  { id := "a", operation := .create, data := some "x",
    version := { id := "a", timestamp := 5 }, localTimestamp := 5 }

/-- A concrete engine that is offline and has one pending change. -/
def offlineEngine : SyncEngine String :=
  { isOnline := false,
    changeTracker := { changes := [("a", sampleChange)],
                       changeQueue := [sampleChange] } }

/-- A concrete engine that is online, idle, and has one pending change. -/
def pendingEngine : SyncEngine String :=
  { isOnline := true,
    changeTracker := { changes := [("a", sampleChange)],
                       changeQueue := [sampleChange] } }

/-- A change for document `"a"` recorded while a push of `sampleChange` was
awaited, stamped in the same millisecond as `sampleChange`. -/
def concurrentChange : ChangeRecord String :=
  { id := "b", operation := .create, data := some "y",
    version := { id := "b", timestamp := 5 }, localTimestamp := 5 }

/-- A change for document `"a"` recorded while a push of `sampleChange` was
awaited, stamped one millisecond later. -/
def laterChange : ChangeRecord String :=
  { id := "c", operation := .create, data := some "z",
    version := { id := "c", timestamp := 6 }, localTimestamp := 6 }

/-- A tracked change for document `"a"` with version timestamp 5. -/
def indexedChange : ChangeRecord String :=
  { id := "a", operation := .create, data := some "x",
    version := { id := "a", timestamp := 5 }, localTimestamp := 1 }

/-- An external record for document `"a"` whose version timestamp ties the
index entry of `indexedTracker`. -/
def tiedChange : ChangeRecord String :=
  { id := "a", operation := .update, data := some "y",
    version := { id := "a", timestamp := 5 }, localTimestamp := 2 }

/-- A tracker whose latest-per-id index maps `"a"` to `indexedChange`. -/
def indexedTracker : ChangeTracker String :=
  { changes := [("a", indexedChange)], changeQueue := [indexedChange] }

/-- A document for id `"a"` with version timestamp 100. -/
def docTs100 : Document String :=
  { id := "a", data := "x", version := { id := "a", timestamp := 100 } }

/-- A document for id `"a"` with version timestamp 50. -/
def docTs50 : Document String :=
  { id := "a", data := "y", version := { id := "a", timestamp := 50 } }

/-- A concrete engine whose store holds `docTs100` under key `"a"`. -/
def storedEngine : SyncEngine String :=
  { store := { documents := [("a", docTs100)] } }

section Lemmas

open ChangeTracker SyncEngine

theorem mapGet_set_self [DecidableEq κ] (m : List (κ × β)) (k : κ) (v : β) :
    mapGet (mapSet m k v) k = some v := by
  induction m with
  | nil => simp [mapGet, mapSet]
  | cons p ps ih =>
      by_cases h : p.1 = k
      · simp [mapGet, mapSet, h]
      · simpa [mapGet, mapSet, h, List.find?] using ih

theorem mapGet_delete_self [DecidableEq κ] (m : List (κ × β)) (k : κ) :
    mapGet (mapDelete m k) k = none := by
  induction m with
  | nil => simp [mapGet, mapDelete]
  | cons p ps ih =>
      by_cases h : p.1 = k
      · simp only [mapGet, mapDelete] at ih ⊢
        simp [h, ih]
      · simp only [mapGet, mapDelete] at ih ⊢
        simp [h, List.find?, ih]

theorem foldl_addChange_queue (t : ChangeTracker T)
    (l : List (ChangeRecord T)) :
    (l.foldl ChangeTracker.addChange t).changeQueue = t.changeQueue ++ l := by
  induction l generalizing t with
  | nil => simp
  | cons c cs ih => simp [ChangeTracker.addChange, ih]

theorem resolveConflicts_queue (s : SyncEngine T)
    (resolver : ConflictInfo T → ConflictResolution T)
    (conflicts : List (ConflictInfo T)) (nowTs : Int) :
    ∃ extra,
      (SyncEngine.resolveConflicts s resolver conflicts nowTs).changeTracker.changeQueue
        = s.changeTracker.changeQueue ++ extra := by
  induction conflicts generalizing s with
  | nil => exact ⟨[], by simp [SyncEngine.resolveConflicts]⟩
  | cons c cs ih =>
      have hsplit :
          SyncEngine.resolveConflicts s resolver (c :: cs) nowTs
            = SyncEngine.resolveConflicts
                (SyncEngine.resolveConflicts s resolver [c] nowTs)
                resolver cs nowTs := rfl
      have hstep :
          (SyncEngine.resolveConflicts s resolver [c] nowTs).changeTracker.changeQueue
            = s.changeTracker.changeQueue ++
              [{ id := c.documentId, operation := ChangeOperation.update,
                 data := some (resolver c).resolvedData,
                 version := (resolver c).resolvedVersion,
                 localTimestamp := nowTs }] := by
        simp [SyncEngine.resolveConflicts, SyncEngine.emit,
          ChangeTracker.recordUpdate, ChangeTracker.addChange]
      obtain ⟨e, he⟩ := ih (SyncEngine.resolveConflicts s resolver [c] nowTs)
      refine ⟨{ id := c.documentId, operation := ChangeOperation.update,
                data := some (resolver c).resolvedData,
                version := (resolver c).resolvedVersion,
                localTimestamp := nowTs } :: e, ?_⟩
      rw [hsplit, he, hstep]
      simp

theorem le_foldl_localTs_max (l : List (ChangeRecord T)) (init : Int) :
    init ≤ l.foldl (fun m r => max m r.localTimestamp) init := by
  induction l generalizing init with
  | nil => simp
  | cons c cs ih =>
      exact le_trans (le_max_left _ _) (ih (max init c.localTimestamp))

theorem mem_le_foldl_localTs_max {c : ChangeRecord T} {l : List (ChangeRecord T)}
    (init : Int) (h : c ∈ l) :
    c.localTimestamp ≤ l.foldl (fun m r => max m r.localTimestamp) init := by
  induction l generalizing init with
  | nil => cases h
  | cons d ds ih =>
      rcases List.mem_cons.mp h with rfl | hmem
      · exact le_trans (le_max_right _ _) (le_foldl_localTs_max ds _)
      · exact ih _ hmem

theorem mem_le_maxLocalTimestamp {c : ChangeRecord T}
    {l : List (ChangeRecord T)} (h : c ∈ l) :
    c.localTimestamp ≤ maxLocalTimestamp l := by
  cases l with
  | nil => cases h
  | cons d ds =>
      rcases List.mem_cons.mp h with rfl | hmem
      · exact le_foldl_localTs_max ds _
      · exact mem_le_foldl_localTs_max _ hmem

@[simp] theorem emit_changeTracker (s : SyncEngine T) (e : SyncEvent T) :
    (SyncEngine.emit s e).changeTracker = s.changeTracker := rfl

@[simp] theorem emit_store (s : SyncEngine T) (e : SyncEvent T) :
    (SyncEngine.emit s e).store = s.store := rfl

@[simp] theorem emit_lastPushTimestamp (s : SyncEngine T) (e : SyncEvent T) :
    (SyncEngine.emit s e).lastPushTimestamp = s.lastPushTimestamp := rfl

@[simp] theorem emit_lastPullTimestamp (s : SyncEngine T) (e : SyncEvent T) :
    (SyncEngine.emit s e).lastPullTimestamp = s.lastPullTimestamp := rfl

@[simp] theorem emit_isOnline (s : SyncEngine T) (e : SyncEvent T) :
    (SyncEngine.emit s e).isOnline = s.isOnline := rfl

@[simp] theorem emit_isSyncing (s : SyncEngine T) (e : SyncEvent T) :
    (SyncEngine.emit s e).isSyncing = s.isSyncing := rfl

@[simp] theorem emit_events (s : SyncEngine T) (e : SyncEvent T) :
    (SyncEngine.emit s e).events = s.events ++ [e] := rfl

@[simp] theorem emitStateChange_changeTracker (s : SyncEngine T) :
    (SyncEngine.emitStateChange s).changeTracker = s.changeTracker := rfl

@[simp] theorem emitStateChange_store (s : SyncEngine T) :
    (SyncEngine.emitStateChange s).store = s.store := rfl

@[simp] theorem emitStateChange_lastPushTimestamp (s : SyncEngine T) :
    (SyncEngine.emitStateChange s).lastPushTimestamp = s.lastPushTimestamp := rfl

@[simp] theorem emitStateChange_events (s : SyncEngine T) :
    (SyncEngine.emitStateChange s).events
      = s.events ++ [SyncEvent.stateChanged (SyncEngine.getSyncState s)] := rfl

end Lemmas

section Claims

open ChangeTracker SyncEngine

/-- C5: the `LastWriteWinsResolver` returns the remote side's data and
version verbatim exactly when the remote timestamp is strictly greater, or
the timestamps are equal and the remote version id is lexicographically
greater; in every other case it returns the local side's data and version
verbatim. -/
theorem lww_picks_remote_iff_newer_or_tied_greater_id (conflict : ConflictInfo T) :
    (conflict.remoteVersion.timestamp > conflict.localVersion.timestamp ∨
        (conflict.remoteVersion.timestamp = conflict.localVersion.timestamp ∧
          conflict.remoteVersion.id > conflict.localVersion.id) →
      LastWriteWinsResolver.resolve conflict =
        { resolvedData := conflict.remoteData,
          resolvedVersion := conflict.remoteVersion }) ∧
    (¬(conflict.remoteVersion.timestamp > conflict.localVersion.timestamp ∨
        (conflict.remoteVersion.timestamp = conflict.localVersion.timestamp ∧
          conflict.remoteVersion.id > conflict.localVersion.id)) →
      LastWriteWinsResolver.resolve conflict =
        { resolvedData := conflict.localData,
          resolvedVersion := conflict.localVersion }) := by
  constructor
  · intro h
    unfold LastWriteWinsResolver.resolve
    rw [if_pos h]
  · intro h
    unfold LastWriteWinsResolver.resolve
    rw [if_neg h]

/-- Witness for C5 at a concrete conflict in which the remote side is one
millisecond newer. -/
theorem lww_picks_remote_iff_newer_or_tied_greater_id_witness :
    LastWriteWinsResolver.resolve
        ({ documentId := "d",
           localVersion := { id := "d", timestamp := 1 },
           remoteVersion := { id := "d", timestamp := 2 },
           localData := "L", remoteData := "R" } : ConflictInfo String) =
      { resolvedData := "R", resolvedVersion := { id := "d", timestamp := 2 } } :=
  (lww_picks_remote_iff_newer_or_tied_greater_id _).1 (Or.inl (by decide))

/-- `compareVersions a b ≤ 0` holds exactly for the lexicographic
(timestamp, id) order. -/
theorem compareVersions_nonpos_iff (a b : DocumentVersion) :
    compareVersions a b ≤ 0 ↔
      (a.timestamp < b.timestamp ∨
        (a.timestamp = b.timestamp ∧ a.id ≤ b.id)) := by
  unfold compareVersions
  split_ifs with h1 h2 h3 h4
  · simp only [iff_true_intro (Or.inl h1)]
    norm_num
  · constructor
    · intro h; omega
    · rintro (h | ⟨he, _⟩)
      · exact absurd h (not_lt_of_gt h2)
      · exact absurd he (ne_of_gt h2)
  · constructor
    · intro _
      exact Or.inr ⟨by omega, le_of_lt h3⟩
    · intro _; norm_num
  · constructor
    · intro h; omega
    · rintro (h | ⟨_, hle⟩)
      · exact absurd h h1
      · exact absurd hle (not_le_of_gt h4)
  · constructor
    · intro _
      refine Or.inr ⟨by omega, ?_⟩
      rcases lt_trichotomy a.id b.id with h | h | h
      · exact le_of_lt h
      · exact le_of_eq h
      · exact absurd h h4
    · intro _; norm_num

/-- C8: `compareVersions` is a total order comparator on versions, ordered
first by timestamp and then lexicographically by id: it only returns −1, 0
or 1, it is reflexively 0, negating swaps its arguments, and the induced
`≤ 0` relation is transitive. -/
theorem compareVersions_total_order (a b c : DocumentVersion) :
    (compareVersions a b = -1 ∨ compareVersions a b = 0 ∨
        compareVersions a b = 1) ∧
    compareVersions a a = 0 ∧
    compareVersions a b = -compareVersions b a ∧
    (compareVersions a b ≤ 0 → compareVersions b c ≤ 0 →
      compareVersions a c ≤ 0) := by
  refine ⟨?_, ?_, ?_, ?_⟩
  · unfold compareVersions
    split_ifs <;> norm_num
  · simp [compareVersions]
  · unfold compareVersions
    rcases lt_trichotomy a.timestamp b.timestamp with h | h | h
    · rw [if_pos h, if_neg (asymm h), if_pos (by exact h)]
    · rcases lt_trichotomy a.id b.id with g | g | g
      · rw [if_neg (by omega), if_neg (by omega), if_pos g,
          if_neg (by omega), if_neg (by omega), if_neg (asymm g), if_pos g]
      · rw [if_neg (by omega), if_neg (by omega), if_neg (by rw [g]; exact lt_irrefl _),
          if_neg (by rw [g]; exact lt_irrefl _), if_neg (by omega), if_neg (by omega),
          if_neg (by rw [g]; exact lt_irrefl _), if_neg (by rw [g]; exact lt_irrefl _)]
        norm_num
      · rw [if_neg (by omega), if_neg (by omega), if_neg (asymm g), if_pos g,
          if_neg (by omega), if_neg (by omega), if_pos g]
        norm_num
    · rw [if_neg (asymm h), if_pos (by exact h), if_pos h]
      norm_num
  · intro h1 h2
    rw [compareVersions_nonpos_iff] at h1 h2 ⊢
    rcases h1 with h1 | ⟨e1, i1⟩ <;> rcases h2 with h2 | ⟨e2, i2⟩
    · exact Or.inl (lt_trans h1 h2)
    · exact Or.inl (by omega)
    · exact Or.inl (by omega)
    · exact Or.inr ⟨by omega, le_trans i1 i2⟩

/-- Witness for C8 at three concrete versions, discharging both hypotheses
of the transitivity conjunct. -/
theorem compareVersions_total_order_witness :
    compareVersions { id := "a", timestamp := 1 } { id := "b", timestamp := 2 } ≤ 0 ∧
    compareVersions { id := "b", timestamp := 2 } { id := "c", timestamp := 3 } ≤ 0 ∧
    compareVersions { id := "a", timestamp := 1 } { id := "c", timestamp := 3 } ≤ 0 :=
  ⟨by decide, by decide,
    (compareVersions_total_order { id := "a", timestamp := 1 }
        { id := "b", timestamp := 2 } { id := "c", timestamp := 3 }).2.2.2
      (by decide) (by decide)⟩

/-- C9: `emit` invokes every currently-registered listener for the event —
the resulting world state is the fold of all the listeners' effects, in
registration order — and a listener that throws neither prevents the
remaining listeners from being invoked nor causes `emit` itself to throw:
the error is appended to the diagnostic log and swallowed. -/
theorem emit_runs_every_listener_and_swallows_errors [DecidableEq κ]
    (em : SyncEventEmitter κ α σ ε) (event : κ) (data : α) (s : σ)
    (log : List ε) :
    SyncEventEmitter.emit em event data s log
      = (((mapGet em.listeners event).getD []).foldl
           (fun st l => (l data st).1) s,
         log ++ SyncEventEmitter.errorsAccum
           ((mapGet em.listeners event).getD []) data s) := by
  have hfold : ∀ (ls : List (ListenerFn α σ ε)) (s0 : σ) (log0 : List ε),
      SyncEventEmitter.emitFold ls data s0 log0
        = (ls.foldl (fun st l => (l data st).1) s0,
           log0 ++ SyncEventEmitter.errorsAccum ls data s0) := by
    intro ls
    induction ls with
    | nil => intro s0 log0; simp [SyncEventEmitter.emitFold, SyncEventEmitter.errorsAccum]
    | cons l ls ih =>
        intro s0 log0
        simp only [SyncEventEmitter.emitFold, List.foldl_cons] at ih ⊢
        rcases hl : l data s0 with ⟨s2, oe⟩
        cases oe <;>
          simp [SyncEventEmitter.errorsAccum, hl, ih]
  unfold SyncEventEmitter.emit
  cases h : mapGet em.listeners event with
  | none => simp [SyncEventEmitter.errorsAccum]
  | some ls => simp [hfold]

/-- C10: when a document with the given id is in the store, the engine's
`delete` returns `true` and a subsequent `get` returns `null`: deletion
removes the document from the store entirely instead of writing back a
soft-delete tombstone. -/
theorem delete_then_get_returns_none (s : SyncEngine T) (id : String)
    (nowTs : Int) (doc : Document T) (h : s.store.get id = some doc) :
    (SyncEngine.delete s id nowTs).2 = true ∧
    SyncEngine.get (SyncEngine.delete s id nowTs).1 id = none := by
  have h' : mapGet s.store.documents id = some doc := h
  constructor <;>
    simp [SyncEngine.delete, SyncEngine.get, SyncEngine.emit,
      MemoryStore.get, MemoryStore.delete, h', mapGet_delete_self]

/-- Witness for C10: deleting `"a"` from a store holding `docTs100`
succeeds and leaves `get "a"` returning `none`. -/
theorem delete_then_get_returns_none_witness :
    (SyncEngine.delete storedEngine "a" 7).2 = true ∧
    SyncEngine.get (SyncEngine.delete storedEngine "a" 7).1 "a" = none :=
  delete_then_get_returns_none storedEngine "a" 7 docTs100 (by decide)

/-- C3: applying a single remote create or update change with non-null data
runs conflict resolution on the `ConflictInfo` built from the two sides when
a strictly newer local document exists, and in every other case (no local
document, or local timestamp ≤ remote timestamp) writes exactly
`Document { id := change.id, data := change.data, version := change.version,
deleted := false }` to the store, changing nothing else. -/
theorem applyRemoteCreateOrUpdate_conflict_or_verbatim_write
    (s : SyncEngine T) (change : ChangeRecord T)
    (resolver : ConflictInfo T → ConflictResolution T) (nowTs : Int) (d : T)
    (hd : change.data = some d)
    (hop : change.operation = .create ∨ change.operation = .update) :
    (SyncEngine.applySingleRemoteChange s change resolver nowTs
        = SyncEngine.handleCreateOrUpdateChange s change resolver nowTs) ∧
    (∀ existing, s.store.get change.id = some existing →
        existing.version.timestamp > change.version.timestamp →
        SyncEngine.handleCreateOrUpdateChange s change resolver nowTs
          = SyncEngine.resolveConflicts s resolver
              [{ documentId := change.id, localVersion := existing.version,
                 remoteVersion := change.version,
                 localData := existing.data, remoteData := d }] nowTs) ∧
    (∀ existing, s.store.get change.id = some existing →
        ¬ existing.version.timestamp > change.version.timestamp →
        SyncEngine.handleCreateOrUpdateChange s change resolver nowTs
          = { s with store := (s.store.put
                { id := change.id, data := d, version := change.version,
                  deleted := false }) }) ∧
    (s.store.get change.id = none →
        SyncEngine.handleCreateOrUpdateChange s change resolver nowTs
          = { s with store := (s.store.put
                { id := change.id, data := d, version := change.version,
                  deleted := false }) }) := by
  refine ⟨?_, ?_, ?_, ?_⟩
  · rcases hop with h | h <;>
      simp [SyncEngine.applySingleRemoteChange, h, hd]
  · intro existing hex hlt
    simp [SyncEngine.handleCreateOrUpdateChange, hd, hex, hlt]
  · intro existing hex hlt
    simp [SyncEngine.handleCreateOrUpdateChange, hd, hex, hlt]
  · intro hnone
    simp [SyncEngine.handleCreateOrUpdateChange, hd, hnone]

/-- Witness for C3: a remote create for `"n"` applied to an empty store
writes exactly the remote document. -/
theorem applyRemoteCreateOrUpdate_conflict_or_verbatim_write_witness :
    SyncEngine.handleCreateOrUpdateChange ({} : SyncEngine String)
        { id := "n", operation := .create, data := some "v",
          version := { id := "n", timestamp := 3 }, localTimestamp := 2 }
        LastWriteWinsResolver.resolve 5
      = { ({} : SyncEngine String) with
          store := (({} : SyncEngine String).store.put
            { id := "n", data := "v",
              version := { id := "n", timestamp := 3 }, deleted := false }) } :=
  (applyRemoteCreateOrUpdate_conflict_or_verbatim_write ({} : SyncEngine String)
      { id := "n", operation := .create, data := some "v",
        version := { id := "n", timestamp := 3 }, localTimestamp := 2 }
      LastWriteWinsResolver.resolve 5 "v" rfl (Or.inl rfl)).2.2.2 rfl

/-- C4: while `isSyncing` is true or `isOnline` is false, `pull`, `push`
and `sync` all leave the engine state — store, tracker, timestamps and the
event trace — untouched, and `push` is additionally a no-op whenever the
tracker has no pending changes.  Since each of the three sets `isSyncing`
immediately after passing its guard and resets it only on completion, any
entry attempted while another operation is past its guard falls under the
first conjunct, so at most one of them is past its entry guard at a time. -/
theorem sync_operations_guarded (s : SyncEngine T)
    (po : Except String (PullResult T)) (uo : Except String (PushResult T))
    (app : List (ChangeRecord T))
    (resolver : ConflictInfo T → ConflictResolution T)
    (bs : Nat) (nowTs : Int) :
    ((s.isSyncing = true ∨ s.isOnline = false) →
        SyncEngine.pull s po resolver nowTs = s ∧
        SyncEngine.push s uo app resolver bs nowTs = s ∧
        SyncEngine.sync s po uo app resolver bs nowTs = s) ∧
    (s.changeTracker.hasPendingChanges = false →
        SyncEngine.push s uo app resolver bs nowTs = s) := by
  constructor
  · intro h
    have hc : (s.isSyncing || !s.isOnline) = true := by
      rcases h with h | h <;> simp [h]
    refine ⟨?_, ?_, ?_⟩ <;>
      simp [SyncEngine.pull, SyncEngine.push, SyncEngine.sync, hc]
  · intro h
    by_cases hc : (s.isSyncing || !s.isOnline) = true
    · simp [SyncEngine.push, hc]
    · simp [SyncEngine.push, hc, h]

/-- Witness for C4: on a concrete offline engine with one pending change,
`pull`, `push` and `sync` are all no-ops. -/
theorem sync_operations_guarded_witness :
    SyncEngine.pull offlineEngine (.error "net") LastWriteWinsResolver.resolve 9
        = offlineEngine ∧
    SyncEngine.push offlineEngine (.error "net") [] LastWriteWinsResolver.resolve 100 9
        = offlineEngine ∧
    SyncEngine.sync offlineEngine (.error "net") (.error "net") []
        LastWriteWinsResolver.resolve 100 9
      = offlineEngine :=
  (sync_operations_guarded offlineEngine (.error "net") (.error "net") []
      LastWriteWinsResolver.resolve 100 9).1 (Or.inr rfl)

/-- Counterexample for C6: `mergeChanges` does NOT append every record of
the list to the pending queue — a record whose version timestamp ties the
current index entry for its id is dropped entirely.  Here `tiedChange` (for
id `"a"`, version timestamp 5) is merged into a tracker whose index already
maps `"a"` to a record with version timestamp 5: the tracker is unchanged
and `tiedChange` is not pending. -/
theorem mergeChanges_drops_tied_record :
    ChangeTracker.mergeChanges indexedTracker [tiedChange] = indexedTracker ∧
    tiedChange ∉ (ChangeTracker.mergeChanges indexedTracker [tiedChange]).changeQueue := by
  decide

/-- C6 (amended): `mergeChanges` processes the external records in order;
a record is appended to the pending queue — and its latest-per-id index
entry set to it — exactly when no index entry exists for its id or the
record's version timestamp strictly exceeds the current entry's; otherwise
the record is dropped entirely (in particular, an existing index entry is
replaced only when the record's version timestamp strictly exceeds its
own). -/
theorem mergeChanges_appends_iff_strictly_newer (t : ChangeTracker T)
    (c : ChangeRecord T) (cs : List (ChangeRecord T)) :
    ChangeTracker.mergeChanges t (c :: cs)
        = ChangeTracker.mergeChanges (ChangeTracker.mergeStep t c) cs ∧
    (ChangeTracker.getLatestChange t c.id = none →
        ChangeTracker.mergeStep t c = ChangeTracker.addChange t c) ∧
    (∀ ex, ChangeTracker.getLatestChange t c.id = some ex →
        c.version.timestamp > ex.version.timestamp →
        ChangeTracker.mergeStep t c = ChangeTracker.addChange t c) ∧
    (∀ ex, ChangeTracker.getLatestChange t c.id = some ex →
        ¬ c.version.timestamp > ex.version.timestamp →
        ChangeTracker.mergeStep t c = t) ∧
    ((ChangeTracker.addChange t c).changeQueue = t.changeQueue ++ [c] ∧
      ChangeTracker.getLatestChange (ChangeTracker.addChange t c) c.id = some c) := by
  refine ⟨rfl, ?_, ?_, ?_, rfl, ?_⟩
  · intro h
    simp [ChangeTracker.mergeStep, h]
  · intro ex hex hlt
    simp [ChangeTracker.mergeStep, hex, hlt]
  · intro ex hex hlt
    simp [ChangeTracker.mergeStep, hex, hlt]
  · simp [ChangeTracker.getLatestChange, ChangeTracker.addChange,
      mapGet_set_self]

/-- Witness for C6 (amended): merging the tied record into
`indexedTracker` leaves the tracker unchanged. -/
theorem mergeChanges_appends_iff_strictly_newer_witness :
    ChangeTracker.mergeStep indexedTracker tiedChange = indexedTracker :=
  (mergeChanges_appends_iff_strictly_newer indexedTracker tiedChange []).2.2.2.1
    indexedChange (by decide) (by decide)

/-- Counterexample for C2: `put` writes the caller's document verbatim, so
two successive writes of document `"a"` through the engine — first
`docTs100` (version timestamp 100), then `docTs50` (version timestamp 50) —
leave the second write with a version timestamp that is NOT strictly greater
than the first one's. -/
theorem put_version_not_monotonic :
    (SyncEngine.put (SyncEngine.put ({} : SyncEngine String) docTs100 100)
        docTs50 101).store.get "a" = some docTs50 ∧
    ¬ docTs50.version.timestamp > docTs100.version.timestamp := by
  decide

/-- C2 (amended): writes produced by `update` are version-monotonic — the
updated document's version timestamp is strictly greater than the stored
prior document's, and when the prior version timestamp is at or above the
wall clock `now()` the new timestamp is exactly the prior timestamp plus
one — and the updated document is both returned and stored.  (`put` and
`create` write a caller-supplied or freshly-stamped version without this
defense, as the counterexample shows.) -/
theorem update_version_strictly_increases (s : SyncEngine T) (id : String)
    (data : T) (nowTs : Int) (existing : Document T)
    (hex : s.store.get id = some existing) :
    (SyncEngine.update s id data nowTs).2
        = some (cloneDocument existing (some data) none nowTs) ∧
    (cloneDocument existing (some data) none nowTs).version.timestamp
        > existing.version.timestamp ∧
    (existing.version.timestamp ≥ nowTs →
        (cloneDocument existing (some data) none nowTs).version.timestamp
          = existing.version.timestamp + 1) ∧
    (SyncEngine.update s id data nowTs).1.store.get existing.id
        = some (cloneDocument existing (some data) none nowTs) := by
  refine ⟨?_, ?_, ?_, ?_⟩
  · simp [SyncEngine.update, hex]
  · simp only [cloneDocument, Option.getD_none]
    by_cases h : nowTs ≤ existing.version.timestamp
    · rw [if_pos h]
      show existing.version.timestamp + 1 > existing.version.timestamp
      omega
    · rw [if_neg h]
      show nowTs > existing.version.timestamp
      omega
  · intro hge
    simp only [cloneDocument, Option.getD_none]
    rw [if_pos (by omega : nowTs ≤ existing.version.timestamp)]
  · have hid : (cloneDocument existing (some data) none nowTs).id
        = existing.id := rfl
    have h' : mapGet s.store.documents id = some existing := hex
    simp [SyncEngine.update, hex, h', SyncEngine.emit, MemoryStore.get,
      MemoryStore.put, hid, mapGet_set_self]

/-- Witness for C2 (amended): updating the stored `docTs100` (version
timestamp 100) at wall clock 60 yields version timestamp 101. -/
theorem update_version_strictly_increases_witness :
    (SyncEngine.update storedEngine "a" "y" 60).2
        = some (cloneDocument docTs100 (some "y") none 60) ∧
    (cloneDocument docTs100 (some "y") none 60).version.timestamp
        > docTs100.version.timestamp ∧
    (cloneDocument docTs100 (some "y") none 60).version.timestamp
        = docTs100.version.timestamp + 1 := by
  have h := update_version_strictly_increases storedEngine "a" "y" 60 docTs100
    (by decide)
  exact ⟨h.1, h.2.1, h.2.2.1 (by decide)⟩

/-- C7: a `push` whose transport call fails overall — either the retries
were exhausted and the last error propagated, or the transport answered
`success = false` — emits `SYNC_STARTED` then `SYNC_FAILED` (type `PUSH`)
then `STATE_CHANGED`, and leaves the tracker (pending queue and index),
the store and `lastPushTimestamp` exactly as they were before the push
started. -/
theorem push_failure_emits_failed_and_preserves_state (s : SyncEngine T)
    (outcome : Except String (PushResult T))
    (resolver : ConflictInfo T → ConflictResolution T) (bs : Nat) (nowTs : Int)
    (hsync : s.isSyncing = false) (hon : s.isOnline = true)
    (hpend : s.changeTracker.hasPendingChanges = true)
    (hfail : (∃ e, outcome = .error e) ∨
      ∃ r, outcome = .ok r ∧ r.success = false) :
    (SyncEngine.push s outcome [] resolver bs nowTs).changeTracker
        = s.changeTracker ∧
    (SyncEngine.push s outcome [] resolver bs nowTs).lastPushTimestamp
        = s.lastPushTimestamp ∧
    (SyncEngine.push s outcome [] resolver bs nowTs).store = s.store ∧
    (∀ e, outcome = .error e →
        (SyncEngine.push s outcome [] resolver bs nowTs).events
          = s.events ++
              [SyncEvent.syncStarted .push, SyncEvent.syncFailed .push e,
               SyncEvent.stateChanged
                 { lastPullTimestamp := s.lastPullTimestamp,
                   lastPushTimestamp := s.lastPushTimestamp,
                   pendingChanges := s.changeTracker.getPendingChangeCount,
                   isOnline := s.isOnline, isSyncing := false }]) ∧
    (∀ r, outcome = .ok r → r.success = false →
        (SyncEngine.push s outcome [] resolver bs nowTs).events
          = s.events ++
              [SyncEvent.syncStarted .push,
               SyncEvent.syncFailed .push (r.error.getD "Push failed"),
               SyncEvent.stateChanged
                 { lastPullTimestamp := s.lastPullTimestamp,
                   lastPushTimestamp := s.lastPushTimestamp,
                   pendingChanges := s.changeTracker.getPendingChangeCount,
                   isOnline := s.isOnline, isSyncing := false }]) := by
  have hguard : (s.isSyncing || !s.isOnline) = false := by simp [hsync, hon]
  rcases hfail with ⟨e, rfl⟩ | ⟨r, rfl, hrf⟩
  · refine ⟨?_, ?_, ?_, ?_, ?_⟩ <;>
      simp [SyncEngine.push, hguard, hpend, SyncEngine.emitStateChange,
        SyncEngine.getSyncState, SyncEngine.emit]
  · refine ⟨?_, ?_, ?_, ?_, ?_⟩ <;>
      simp [SyncEngine.push, hguard, hpend, hrf, SyncEngine.emitStateChange,
        SyncEngine.getSyncState, SyncEngine.emit]

/-- Witness for C7: on a concrete online engine with one pending change, a
push whose retries all failed with `"boom"` emits started/failed/state-changed
and leaves the single change pending. -/
theorem push_failure_emits_failed_and_preserves_state_witness :
    (SyncEngine.push pendingEngine (Except.error "boom") []
        LastWriteWinsResolver.resolve 100 9).events
      = [SyncEvent.syncStarted .push, SyncEvent.syncFailed .push "boom",
         SyncEvent.stateChanged
           { lastPullTimestamp := 0, lastPushTimestamp := 0,
             pendingChanges := 1, isOnline := true, isSyncing := false }] :=
  (push_failure_emits_failed_and_preserves_state pendingEngine
      (Except.error "boom") LastWriteWinsResolver.resolve 100 9 rfl rfl rfl
      (Or.inl ⟨"boom", rfl⟩)).2.2.2.1 "boom" rfl

/-- Counterexample for C1: a change appended to the tracker after the push
snapshot was taken is NOT necessarily still pending after the push — here
`concurrentChange` is recorded while the transport call for the batch
`[sampleChange]` is awaited, carries the same local timestamp 5 as the
pushed change, and is wiped out by `clearChangesBefore 6`: the pending queue
afterwards is empty. -/
theorem push_success_drops_same_millisecond_append :
    concurrentChange ∉
      (SyncEngine.push pendingEngine (.ok { success := true })
          [concurrentChange] LastWriteWinsResolver.resolve 100
          9).changeTracker.getPendingChanges ∧
    (SyncEngine.push pendingEngine (.ok { success := true })
        [concurrentChange] LastWriteWinsResolver.resolve 100
        9).changeTracker.getPendingChanges = [] := by
  decide

/-- C1 (amended): after a successful `push` over a pending queue, with `P`
the snapshot of the first `batchSize` changes, every change in `P` is absent
from `getPendingChanges()`, and every change appended to the tracker after
the snapshot was taken whose `localTimestamp` is strictly greater than
`max(localTimestamp over P)` is still pending (an append stamped in the same
millisecond as the batch maximum is cleared too, as the counterexample
shows); the clearing is performed via
`clearChangesBefore(max(localTimestamp over P) + 1)`. -/
theorem push_success_clears_pushed_batch (s : SyncEngine T)
    (result : PushResult T) (app : List (ChangeRecord T))
    (resolver : ConflictInfo T → ConflictResolution T) (bs : Nat) (nowTs : Int)
    (hsync : s.isSyncing = false) (hon : s.isOnline = true)
    (hpend : s.changeTracker.hasPendingChanges = true)
    (hsucc : result.success = true) :
    (∀ c ∈ s.changeTracker.getPendingChanges.take bs,
        c ∉ (SyncEngine.push s (.ok result) app resolver bs
              nowTs).changeTracker.getPendingChanges) ∧
    (∀ c ∈ app,
        maxLocalTimestamp (s.changeTracker.getPendingChanges.take bs)
            < c.localTimestamp →
        c ∈ (SyncEngine.push s (.ok result) app resolver bs
              nowTs).changeTracker.getPendingChanges) ∧
    (result.conflicts = [] →
        (SyncEngine.push s (.ok result) app resolver bs nowTs).changeTracker
          = ChangeTracker.clearChangesBefore
              (app.foldl ChangeTracker.addChange s.changeTracker)
              (maxLocalTimestamp (s.changeTracker.getPendingChanges.take bs)
                + 1)) := by
  have hguard : (s.isSyncing || !s.isOnline) = false := by simp [hsync, hon]
  have key : ∃ extra,
      (SyncEngine.push s (.ok result) app resolver bs
          nowTs).changeTracker.changeQueue
        = ((s.changeTracker.changeQueue ++ app) ++ extra).filter
            (fun ch => decide (ch.localTimestamp ≥
              maxLocalTimestamp (s.changeTracker.changeQueue.take bs) + 1)) := by
    obtain ⟨extra, hextra⟩ :=
      resolveConflicts_queue
        { (SyncEngine.emit { s with isSyncing := true } (.syncStarted .push)) with
          changeTracker :=
            app.foldl ChangeTracker.addChange
              (SyncEngine.emit { s with isSyncing := true }
                (.syncStarted .push)).changeTracker }
        resolver result.conflicts nowTs
    by_cases hconf : 0 < result.conflicts.length
    · refine ⟨extra, ?_⟩
      simp only [SyncEngine.push, hguard, Bool.false_eq_true, if_false, hpend,
        Bool.not_true, hsucc, if_true, hconf, SyncEngine.emitStateChange]
      cases result.timestamp <;>
        simp_all [ChangeTracker.clearChangesBefore, ChangeTracker.getPendingChanges,
          foldl_addChange_queue, SyncEngine.emit]
    · refine ⟨[], ?_⟩
      simp only [SyncEngine.push, hguard, Bool.false_eq_true, if_false, hpend,
        Bool.not_true, hsucc, if_true, hconf, SyncEngine.emitStateChange]
      cases result.timestamp <;>
        simp_all [ChangeTracker.clearChangesBefore, ChangeTracker.getPendingChanges,
          foldl_addChange_queue, SyncEngine.emit]
  obtain ⟨extra, hq⟩ := key
  refine ⟨?_, ?_, ?_⟩
  · intro c hc hmem
    rw [ChangeTracker.getPendingChanges, hq] at hmem
    have hle : c.localTimestamp
        ≤ maxLocalTimestamp (s.changeTracker.changeQueue.take bs) :=
      mem_le_maxLocalTimestamp hc
    have := (List.mem_filter.mp hmem).2
    simp only [decide_eq_true_eq] at this
    omega
  · intro c hc hgt
    rw [ChangeTracker.getPendingChanges, hq]
    refine List.mem_filter.mpr ⟨?_, ?_⟩
    · exact List.mem_append.mpr (Or.inl (List.mem_append.mpr (Or.inr hc)))
    · simp only [decide_eq_true_eq]
      exact hgt
  · intro hconf
    simp only [SyncEngine.push, hguard, Bool.false_eq_true, if_false, hpend,
      Bool.not_true, hsucc, if_true, hconf, List.length_nil,
      SyncEngine.emitStateChange]
    cases result.timestamp <;> simp [SyncEngine.emit]

/-- Witness for C1 (amended): pushing the batch `[sampleChange]` (local
timestamp 5) while `laterChange` (local timestamp 6) is appended during the
await leaves `sampleChange` cleared and `laterChange` still pending. -/
theorem push_success_clears_pushed_batch_witness :
    sampleChange ∉
      (SyncEngine.push pendingEngine (.ok { success := true }) [laterChange]
          LastWriteWinsResolver.resolve 100 9).changeTracker.getPendingChanges ∧
    laterChange ∈
      (SyncEngine.push pendingEngine (.ok { success := true }) [laterChange]
          LastWriteWinsResolver.resolve 100 9).changeTracker.getPendingChanges :=
  ⟨(push_success_clears_pushed_batch pendingEngine { success := true }
      [laterChange] LastWriteWinsResolver.resolve 100 9 rfl rfl rfl rfl).1
      sampleChange (by decide),
   (push_success_clears_pushed_batch pendingEngine { success := true }
      [laterChange] LastWriteWinsResolver.resolve 100 9 rfl rfl rfl rfl).2.1
      laterChange (by decide) (by decide)⟩

end Claims

end Atom
